import Mathlib

/-!
Shallow embedding of the hangman game core (my-hangman-game: `main.py`,
`player.py`, `constants.py`) and proofs about it.

Presentation concerns (pygame surfaces, fonts, sounds, pixel coordinates of
the letter buttons) are out of scope; the embedding keeps the game-logic
state and mutations of `HangmanGame` and `Player` faithfully, with the
following standard translations:
* Python `set` of guessed letters becomes a `List Char` into which a letter
  is inserted only when absent (exactly mirroring the `not in` guard in
  `_handle_events`);
* Python dicts (`words_clues`) become association lists with first-match
  lookup;
* `random.choice(words)` becomes an explicit `pick : Nat` parameter selecting
  index `pick % words.length`, and raises `IndexError` on an empty list just
  as Python does;
* code paths that raise (`self.words_clues[difficulty]` on a missing key,
  `random.choice([])`) return `Except GameError`;
* mutation of `self` becomes a returned updated record.
-/

namespace Hangman

/-- Python `dict` as an association list keyed by strings. -/
abbrev Dict (α : Type) : Type := List (String × α)

/-- First-match lookup, the semantics of Python dict indexing (keys unique). -/
def dictLookup {α : Type} (l : List (String × α)) (k : String) : Option α :=
  match l with
  | [] => none
  | (k', v) :: rest => if k' = k then some v else dictLookup rest k

/-- Python `dict.get(k, default)`. -/
def dictGet {α : Type} (l : List (String × α)) (k : String) (default : α) : α :=
  match dictLookup l k with
  | some v => v
  | none => default

/-- The `words_clues` mapping loaded from `words_clues.json`:
difficulty -> (word -> clue). -/
abbrev WordsClues : Type := List (String × List (String × String))

/-- Python `str.strip()` on the character list of a string. -/
def pyStrip (s : List Char) : List Char :=
  ((s.dropWhile Char.isWhitespace).reverse.dropWhile Char.isWhitespace).reverse

/-- List update at an index, identity when out of range; models in-place
mutation of `self.players[i]` at a valid index. -/
def modifyIdx {α : Type} (f : α → α) : Nat → List α → List α
  | _, [] => []
  | 0, a :: as => f a :: as
  | n + 1, a :: as => a :: modifyIdx f n as

/-- Number of entries of the `IMAGES` list in `constants.py`
(`hangman0.png` .. `hangman7.png`). -/
def IMAGES_length : Nat := 8

/-- The spec's MAX_WRONG; the code writes it as `len(IMAGES) - 1`. -/
def MAX_WRONG : Nat := IMAGES_length - 1

/-- `Player` from `player.py`. `hints_used` is the spec's
`hintUsedThisRound`, `hints_left` the spec's `hintsLeft`. -/
structure Player where
  name : String
  guessed_letters : List Char
  score : Nat
  hints_used : Bool
  hints_left : Nat
  deriving Repr, DecidableEq

/-- `Player.__init__`. -/
def Player.init (name : String) : Player :=
  { name := name
    guessed_letters := []
    score := 0
    hints_used := false
    hints_left := 3 }

/-- `Player.make_guess`. -/
def Player.make_guess (p : Player) (letter : Char) : Player :=
  { p with guessed_letters := letter :: p.guessed_letters }

/-- `Player.reset`. -/
def Player.reset (p : Player) : Player :=
  { p with guessed_letters := [], score := 0 }

/-- `Player.update_score`. -/
def Player.update_score (p : Player) (points : Nat) : Player :=
  { p with score := p.score + points }

/-- `Player.provide_hint`: returns the updated player and the message.
Mirrors `words_clues.get(difficulty, {}).get(current_word, "No clue
available")`. -/
def Player.provide_hint (p : Player) (words_clues : WordsClues)
    (difficulty current_word : String) : Player × String :=
  if p.hints_left > 0 then
    ({ p with hints_left := p.hints_left - 1, hints_used := true },
      dictGet (dictGet words_clues difficulty []) current_word "No clue available")
  else
    (p, "No hints left.")

/-- Errors raised by the Python code: `KeyError` from
`self.words_clues[difficulty]` on a missing key, `IndexError` from
`random.choice` on an empty sequence. -/
inductive GameError where
  | keyError
  | indexError
  deriving Repr, DecidableEq

/-- `random.choice(words)` with the nondeterministic draw supplied as
`pick`; raises `IndexError` on an empty sequence. -/
def randomChoice (words : List String) (pick : Nat) : Except GameError String :=
  if h : words = [] then .error .indexError
  else .ok (words.get ⟨pick % words.length,
    Nat.mod_lt _ (List.length_pos.mpr h)⟩)

/-- Game-logic state of `HangmanGame` (`main.py`).  Presentation-only fields
(window, background, the pixel positions in `letters`, `guessed_word`, the
sound handles) are omitted; `difficulty` is `none` until `start` sets it,
like the Python `None` initial value. -/
structure HangmanGame where
  hangman_status : Nat
  current_word : String
  guessed : List Char
  current_player_index : Nat
  players : List Player
  total_players : Nat
  current_round : Nat
  total_rounds : Nat
  words_clues : WordsClues
  hint_active : Bool
  hint_message : String
  difficulty : Option String
  game_state : String
  deriving Repr, DecidableEq

/-- `HangmanGame.__init__` (state fields only); `load_clues` has already
produced `words_clues` (an empty list when the JSON file was missing or
malformed). -/
def HangmanGame.init (words_clues : WordsClues) (total_player : Nat)
    (players : List Player) (current_player_index : Nat) : HangmanGame :=
  { hangman_status := 0
    current_word := ""
    guessed := []
    current_player_index := current_player_index
    players := players
    total_players := total_player
    current_round := 1
    total_rounds := 3
    words_clues := words_clues
    hint_active := false
    hint_message := ""
    difficulty := none
    game_state := "playing" }

/-- `HangmanGame.start`: sets the difficulty, clears the round state and
selects a word with `random.choice(list(self.words_clues[difficulty].keys()))`.
A missing difficulty key raises `KeyError`; an empty word set raises
`IndexError` inside `random.choice`. -/
def HangmanGame.start (g : HangmanGame) (difficulty : String) (pick : Nat) :
    Except GameError HangmanGame :=
  match dictLookup g.words_clues difficulty with
  | none => .error .keyError
  | some wm =>
    match randomChoice (wm.map Prod.fst) pick with
    | .error e => .error e
    | .ok w =>
      .ok { g with
        difficulty := some difficulty
        hangman_status := 0
        guessed := []
        current_word := w
        hint_active := false
        hint_message := "" }

/-- `HangmanGame.reset_game_state`: clears the round state, picks a new word
for the stored difficulty, returns to the `"playing"` state and clears the
current player's `hints_used` flag. -/
def HangmanGame.reset_game_state (g : HangmanGame) (pick : Nat) :
    Except GameError HangmanGame :=
  match (match g.difficulty with
         | none => none
         | some d => dictLookup g.words_clues d) with
  | none => .error .keyError
  | some wm =>
    match randomChoice (wm.map Prod.fst) pick with
    | .error e => .error e
    | .ok w =>
      .ok { g with
        guessed := []
        hangman_status := 0
        hint_active := false
        hint_message := ""
        current_word := w
        game_state := "playing"
        players := modifyIdx (fun p => { p with hints_used := false })
          g.current_player_index g.players }

/-- Outcome of a letter guess, identifying the branch taken by the letter
handling in `_handle_events` (lines 252-265): duplicate letter (no sound, no
mutation), correct-guess branch, or wrong-guess branch. -/
inductive GuessOutcome where
  | alreadyGuessed
  | correct
  | incorrect
  deriving Repr, DecidableEq

/-- Letter-guess handling of `_handle_events`: lowercase the letter; if
already guessed do nothing; otherwise add it to `guessed`, and when it does
not occur in `current_word` increment `hangman_status` unless it already is
`len(IMAGES) - 1`. -/
def HangmanGame.apply_guess (g : HangmanGame) (ltr : Char) :
    HangmanGame × GuessOutcome :=
  let guessed_letter := ltr.toLower
  if g.guessed.contains guessed_letter then
    (g, .alreadyGuessed)
  else
    let g1 := { g with guessed := guessed_letter :: g.guessed }
    if g.current_word.data.contains guessed_letter then
      (g1, .correct)
    else if g1.hangman_status < IMAGES_length - 1 then
      ({ g1 with hangman_status := g1.hangman_status + 1 }, .incorrect)
    else
      (g1, .incorrect)

/-- Folds a sequence of letter guesses, discarding the outcomes. -/
def HangmanGame.applyGuesses (g : HangmanGame) (cs : List Char) : HangmanGame :=
  cs.foldl (fun s c => (s.apply_guess c).1) g

/-- `HangmanGame._is_word_guessed`: an empty or whitespace-only word is never
guessed; otherwise every alphabetic character of the word must be in
`guessed`. -/
def HangmanGame.is_word_guessed (g : HangmanGame) : Bool :=
  if pyStrip g.current_word.data = [] then false
  else g.current_word.data.all (fun c => !c.isAlpha || g.guessed.contains c)

/-- `HangmanGame.update_scores`: on a won round (`_is_word_guessed` and
`hangman_status < len(IMAGES) - 1`) add `7 - hangman_status` points and a
bonus of 10 when `hints_used` is false; otherwise leave the state alone. -/
def HangmanGame.update_scores (g : HangmanGame) : HangmanGame :=
  if g.is_word_guessed = true ∧ g.hangman_status < IMAGES_length - 1 then
    let award := fun (p : Player) =>
      let p1 := p.update_score (7 - g.hangman_status)
      if p1.hints_used = false then p1.update_score 10 else p1
    { g with players := modifyIdx award g.current_player_index g.players }
  else g

/-- Result of the game-over check in `HangmanGame.run` (lines 190-205). -/
inductive RoundResult where
  | playing
  | lose
  | win
  deriving Repr, DecidableEq

/-- Game-over check of `HangmanGame.run`: only evaluated when `guessed` is
non-empty; loss (`hangman_status >= len(IMAGES) - 1`) takes priority over the
win check. -/
def HangmanGame.check_round_over (g : HangmanGame) : RoundResult :=
  if g.guessed ≠ [] then
    if g.hangman_status ≥ IMAGES_length - 1 then .lose
    else if g.is_word_guessed = true then .win
    else .playing
  else .playing

/-- `HangmanGame.handle_end_of_round`: advance the round or move to the
appropriate end-of-game state. -/
def HangmanGame.handle_end_of_round (g : HangmanGame) (pick : Nat) :
    Except GameError HangmanGame :=
  if g.total_players = 1 then
    if g.current_round < g.total_rounds then
      HangmanGame.reset_game_state
        { g with current_round := g.current_round + 1 } pick
    else
      .ok { g with game_state := "end_of_game_single_player" }
  else
    if g.current_player_index + 1 = g.total_players then
      if g.current_round < g.total_rounds then
        HangmanGame.reset_game_state
          { g with current_round := g.current_round + 1 } pick
      else
        .ok { g with game_state := "end_of_game_two_players_second" }
    else
      if g.current_round < g.total_rounds then
        HangmanGame.reset_game_state
          { g with current_round := g.current_round + 1 } pick
      else
        .ok { g with game_state := "end_of_game_two_players_first" }

/-- Continue-button branch of `HangmanGame.handle_button_click`: in
`"end_of_round"` just reset the round; in `"end_of_game_two_players_first"`
rotate the player index, reset the round counter to 1 and reset the round
state.  The exit branches terminate the process and the
end-of-game continue branches re-enter `main()`, neither of which mutates
this state, so they are modelled as the identity. -/
def HangmanGame.handle_button_click (g : HangmanGame) (pick : Nat) :
    Except GameError HangmanGame :=
  if g.game_state = "end_of_round" then
    g.reset_game_state pick
  else if g.game_state = "end_of_game_two_players_first" then
    HangmanGame.reset_game_state
      { g with
        current_player_index := (g.current_player_index + 1) % g.total_players,
        current_round := 1 } pick
  else
    .ok g

/-- `HangmanGame.provide_hint` delegates to the current player's
`Player.provide_hint` with the game's clue table, difficulty and word
(difficulty `None` is not a key of any dict, so its lookup yields the empty
dict default). -/
def HangmanGame.provide_hint (g : HangmanGame) : HangmanGame × String :=
  match g.players.get? g.current_player_index with
  | none => (g, "")
  | some p =>
    let r := p.provide_hint g.words_clues (g.difficulty.getD "") g.current_word
    ({ g with players := modifyIdx (fun _ => r.1) g.current_player_index g.players },
      r.2)

/-! Helper lemmas. -/

theorem modifyIdx_get?_self {α : Type} (f : α → α) (n : Nat) (l : List α) :
    (modifyIdx f n l).get? n = (l.get? n).map f := by
  induction l generalizing n with
  | nil => cases n <;> rfl
  | cons a as ih =>
    cases n with
    | zero => rfl
    | succ m => simpa [modifyIdx] using ih m

theorem modifyIdx_get?_ne {α : Type} (f : α → α) (n j : Nat) (l : List α)
    (h : j ≠ n) : (modifyIdx f n l).get? j = l.get? j := by
  induction l generalizing n j with
  | nil => cases n <;> rfl
  | cons a as ih =>
    cases n with
    | zero =>
      cases j with
      | zero => exact absurd rfl h
      | succ k => rfl
    | succ m =>
      cases j with
      | zero => rfl
      | succ k => simpa [modifyIdx] using ih m k (fun hk => h (by simp [hk]))

theorem modifyIdx_map_field {α β : Type} (f : α → α) (proj : α → β)
    (hf : ∀ a, proj (f a) = proj a) (n j : Nat) (l : List α) :
    ((modifyIdx f n l).get? j).map proj = (l.get? j).map proj := by
  by_cases hj : j = n
  · subst hj
    rw [modifyIdx_get?_self]
    cases l.get? j <;> simp [hf]
  · rw [modifyIdx_get?_ne _ _ _ _ hj]

/-- Branch characterization of the wrong-guess counter of `apply_guess`. -/
theorem apply_guess_hangman_status (g : HangmanGame) (c : Char) :
    ((g.apply_guess c).1).hangman_status =
      if c.toLower ∉ g.guessed ∧ c.toLower ∉ g.current_word.data
          ∧ g.hangman_status < IMAGES_length - 1
      then g.hangman_status + 1 else g.hangman_status := by
  unfold HangmanGame.apply_guess
  by_cases h1 : c.toLower ∈ g.guessed
  · simp [h1]
  · by_cases h2 : c.toLower ∈ g.current_word.data
    · simp [h1, h2]
    · by_cases h3 : g.hangman_status < IMAGES_length - 1
      · simp [h1, h2, h3]
      · simp [h1, h2, h3]

/-- After any guess of `c`, the lowercase form of `c` is in `guessed`. -/
theorem apply_guess_mem_guessed (g : HangmanGame) (c : Char) :
    c.toLower ∈ ((g.apply_guess c).1).guessed := by
  unfold HangmanGame.apply_guess
  by_cases h1 : c.toLower ∈ g.guessed
  · simp [h1]
  · by_cases h2 : c.toLower ∈ g.current_word.data
    · simp [h1, h2]
    · by_cases h3 : g.hangman_status < IMAGES_length - 1
      · simp [h1, h2, h3]
      · simp [h1, h2, h3]

/-- A letter whose lowercase form was already guessed is a complete no-op. -/
theorem apply_guess_of_contains (g : HangmanGame) (c : Char)
    (h : c.toLower ∈ g.guessed) :
    g.apply_guess c = (g, GuessOutcome.alreadyGuessed) := by
  unfold HangmanGame.apply_guess
  simp [h]

theorem applyGuesses_status_invariant (g : HangmanGame) (cs : List Char)
    (h7 : g.hangman_status ≤ MAX_WRONG) :
    g.hangman_status ≤ (g.applyGuesses cs).hangman_status ∧
      (g.applyGuesses cs).hangman_status ≤ MAX_WRONG := by
  induction cs generalizing g with
  | nil => exact ⟨Nat.le_refl _, h7⟩
  | cons c cs ih =>
    have hstep := apply_guess_hangman_status g c
    have h1 : g.hangman_status ≤ ((g.apply_guess c).1).hangman_status := by
      rw [hstep]; split <;> omega
    have h2 : ((g.apply_guess c).1).hangman_status ≤ MAX_WRONG := by
      rw [hstep]
      simp only [MAX_WRONG, IMAGES_length] at h7 ⊢
      split <;> omega
    have htail := ih ((g.apply_guess c).1) h2
    have hfold : g.applyGuesses (c :: cs) = ((g.apply_guess c).1).applyGuesses cs := rfl
    rw [hfold]
    exact ⟨Nat.le_trans h1 htail.1, htail.2⟩

/-! Claim theorems. -/

/-- C2: within a round the wrong-guess counter `hangman_status` is
monotonically non-decreasing across any sequence of guess events and never
exceeds `MAX_WRONG = 7`; a correct or duplicate guess never changes it, and a
new incorrect guess increments it by exactly 1 unless it already equals
`MAX_WRONG`, in which case it stays there. -/
theorem wrong_count_monotone_capped (g : HangmanGame) (cs : List Char)
    (c : Char) (h7 : g.hangman_status ≤ MAX_WRONG) :
    (g.hangman_status ≤ (g.applyGuesses cs).hangman_status ∧
      (g.applyGuesses cs).hangman_status ≤ MAX_WRONG) ∧
    ((c.toLower ∈ g.guessed ∨ c.toLower ∈ g.current_word.data) →
      ((g.apply_guess c).1).hangman_status = g.hangman_status) ∧
    ((c.toLower ∉ g.guessed ∧ c.toLower ∉ g.current_word.data) →
      ((g.apply_guess c).1).hangman_status =
        if g.hangman_status < MAX_WRONG then g.hangman_status + 1
        else g.hangman_status) := by
  refine ⟨applyGuesses_status_invariant g cs h7, ?_, ?_⟩
  · intro h
    rw [apply_guess_hangman_status]
    rcases h with h | h <;> simp [h]
  · intro ⟨h1, h2⟩
    rw [apply_guess_hangman_status]
    simp only [MAX_WRONG, IMAGES_length]
    simp [h1, h2]

/-- The sample clue table: one easy word, `"cat"`, with its clue. -/
def wcCat : WordsClues := [("easy", [("cat", "feline")])]

/-- A freshly started single-player round on the word `"cat"`. -/
def gFresh : HangmanGame :=
  { HangmanGame.init wcCat 1 [Player.init "Player 1"] 0 with
    difficulty := some "easy"
    current_word := "cat" }

/-- C2 witness: a concrete run of three guesses on the word `"cat"` starting
from a fresh round. -/
theorem wrong_count_monotone_capped_witness :
    gFresh.hangman_status ≤ (gFresh.applyGuesses ['c', 'z', 'q']).hangman_status ∧
      (gFresh.applyGuesses ['c', 'z', 'q']).hangman_status ≤ MAX_WRONG :=
  (wrong_count_monotone_capped gFresh ['c', 'z', 'q'] 'c' (by decide)).1

/-- C3: guessing a letter that is already in `guessed` a second time mutates
nothing — neither `guessed` nor `hangman_status` change from the state after
the first occurrence — and yields the `alreadyGuessed` outcome. -/
theorem duplicate_guess_noop (g : HangmanGame) (c : Char) :
    ((g.apply_guess c).1).apply_guess c =
      ((g.apply_guess c).1, GuessOutcome.alreadyGuessed) :=
  apply_guess_of_contains _ _ (apply_guess_mem_guessed g c)

/-- C8: a round in which no guess has been made yet is never judged
terminal: the game-over check returns `playing` whenever `guessed` is
empty. -/
theorem fresh_round_not_terminal (g : HangmanGame) (h : g.guessed = []) :
    g.check_round_over = RoundResult.playing := by
  unfold HangmanGame.check_round_over
  simp [h]

/-- C8 witness: a freshly started round with the word `"cat"` and no guesses
is still `playing`, even though zero letters of the word are revealed. -/
theorem fresh_round_not_terminal_witness :
    gFresh.guessed = [] ∧ gFresh.check_round_over = RoundResult.playing :=
  ⟨rfl, fresh_round_not_terminal gFresh rfl⟩

/-- A concrete state whose secret word consists only of digits: no
alphabetic characters, yet not empty or whitespace-only. -/
def gNonAlpha : HangmanGame :=
  { HangmanGame.init [("easy", [("123", "digits")])] 1 [Player.init "Player 1"] 0 with
    difficulty := some "easy"
    current_word := "123" }

/-- C4 counterexample: the word `"123"` contains no alphabetic character,
yet `_is_word_guessed` reports it fully guessed with an empty guess set —
the code only guards empty and whitespace-only words, not alphabet-free
ones, so the claim that such words are never considered guessed is false. -/
theorem is_word_guessed_nonalpha_counterexample :
    (∀ c ∈ "123".data, ¬ c.isAlpha) ∧
      gNonAlpha.guessed = [] ∧ gNonAlpha.is_word_guessed = true := by
  refine ⟨by decide, rfl, by decide⟩

/-- C4 amended: `_is_word_guessed` returns true iff the secret word is not
empty after stripping whitespace and every alphabetic character of it is in
`guessed`; empty and whitespace-only words are never considered guessed, but
a non-blank word with no alphabetic characters (e.g. all digits) is
vacuously considered guessed. -/
theorem is_word_guessed_characterization (g : HangmanGame) :
    g.is_word_guessed = true ↔
      (pyStrip g.current_word.data ≠ [] ∧
        ∀ c ∈ g.current_word.data, c.isAlpha → c ∈ g.guessed) := by
  unfold HangmanGame.is_word_guessed
  by_cases h : pyStrip g.current_word.data = []
  · simp [h]
  · simp only [h, if_neg, ne_eq, not_false_eq_true, true_and, List.all_eq_true]
    constructor
    · intro hall c hc ha
      have := hall c hc
      simpa [ha] using this
    · intro hall c hc
      by_cases ha : c.isAlpha
      · simpa [ha] using hall c hc ha
      · simp [ha]

/-- C5: `Player.provide_hint` with hints remaining decrements `hints_left`
by one, sets `hints_used`, and returns the clue stored for the word under
the difficulty when there is one, else the "No clue available" sentinel;
with no hints remaining it returns the "No hints left." sentinel and changes
nothing. -/
theorem provide_hint_spec (p : Player) (wc : WordsClues) (d w : String) :
    (p.hints_left > 0 →
      ((p.provide_hint wc d w).1 =
          { p with hints_left := p.hints_left - 1, hints_used := true } ∧
        (∀ clue, dictLookup (dictGet wc d []) w = some clue →
          (p.provide_hint wc d w).2 = clue) ∧
        (dictLookup (dictGet wc d []) w = none →
          (p.provide_hint wc d w).2 = "No clue available"))) ∧
    (p.hints_left = 0 → p.provide_hint wc d w = (p, "No hints left.")) := by
  unfold Player.provide_hint
  constructor
  · intro h
    rw [if_pos h]
    refine ⟨rfl, ?_, ?_⟩
    · intro clue hc
      simp only [dictGet] at hc ⊢
      rw [hc]
    · intro hc
      simp only [dictGet] at hc ⊢
      rw [hc]
  · intro h
    rw [if_neg (by omega)]

/-- C5 witness: a fresh player gets the stored clue for `"cat"` and drops to
two hints; a player with no hints left gets the sentinel and is unchanged. -/
theorem provide_hint_spec_witness :
    ((Player.init "P").provide_hint [("easy", [("cat", "feline")])] "easy" "cat").1 =
        { Player.init "P" with hints_left := 2, hints_used := true } ∧
      ((Player.init "P").provide_hint [("easy", [("cat", "feline")])] "easy" "cat").2 =
        "feline" ∧
      ({ Player.init "Q" with hints_left := 0 } : Player).provide_hint [] "easy" "cat" =
        ({ Player.init "Q" with hints_left := 0 }, "No hints left.") := by
  have h1 := (provide_hint_spec (Player.init "P")
    [("easy", [("cat", "feline")])] "easy" "cat").1 (by decide)
  have h2 := (provide_hint_spec ({ Player.init "Q" with hints_left := 0 })
    [] "easy" "cat").2 rfl
  exact ⟨h1.1, h1.2.1 "feline" rfl, h2⟩

/-- C10: hint consumption is not gated per round — every request with
`hints_left > 0` decrements the budget again, even when `hints_used` is
already true, and returns the same message for the unchanged word; a player
starting from the full budget of 3 can exhaust it in three requests within
one round. -/
theorem hints_not_gated_per_round (p : Player) (wc : WordsClues) (d w : String)
    (h : 0 < p.hints_left) :
    ((p.provide_hint wc d w).1).hints_used = true ∧
    ((p.provide_hint wc d w).1).hints_left = p.hints_left - 1 ∧
    (0 < ((p.provide_hint wc d w).1).hints_left →
      ((((p.provide_hint wc d w).1).provide_hint wc d w).1).hints_left =
          ((p.provide_hint wc d w).1).hints_left - 1 ∧
        ((((p.provide_hint wc d w).1).provide_hint wc d w).1).hints_used = true ∧
        (((p.provide_hint wc d w).1).provide_hint wc d w).2 =
          (p.provide_hint wc d w).2) ∧
    (p.hints_left = 3 →
      (((((p.provide_hint wc d w).1).provide_hint wc d w).1).provide_hint
          wc d w).1.hints_left = 0) := by
  unfold Player.provide_hint
  rw [if_pos h]
  refine ⟨rfl, rfl, ?_, ?_⟩
  · intro h2
    simp only at h2 ⊢
    rw [if_pos h2]
    exact ⟨rfl, rfl, rfl⟩
  · intro h3
    simp only [h3]
    norm_num

/-- C10 witness: a fresh player spends all three hints inside one round. -/
theorem hints_not_gated_per_round_witness :
    (((((Player.init "P").provide_hint [("easy", [("cat", "feline")])] "easy"
      "cat").1).provide_hint [("easy", [("cat", "feline")])] "easy" "cat").1).provide_hint
        [("easy", [("cat", "feline")])] "easy" "cat" |>.1.hints_left = 0 := by
  exact (hints_not_gated_per_round (Player.init "P")
    [("easy", [("cat", "feline")])] "easy" "cat" (by decide)).2.2.2 rfl

/-- C1: a round that ends in a win with `w` wrong guesses (necessarily
`w ≤ 6`) awards the current player exactly `7 - w` points plus a flat bonus
of 10 exactly when no hint was used this round; a round that ends in a loss
leaves the whole state, in particular every score, unchanged. -/
theorem scoring_win_award_lose_unchanged (g : HangmanGame) (p : Player)
    (hp : g.players.get? g.current_player_index = some p) :
    (g.check_round_over = RoundResult.win →
      g.hangman_status ≤ MAX_WRONG - 1 ∧
      (g.update_scores).players.get? g.current_player_index =
        some { p with score := p.score + (7 - g.hangman_status) +
          (if p.hints_used = false then 10 else 0) }) ∧
    (g.check_round_over = RoundResult.lose → g.update_scores = g) := by
  constructor
  · intro hwin
    unfold HangmanGame.check_round_over at hwin
    split_ifs at hwin with h0 h1 h2
    have hlt : g.hangman_status < IMAGES_length - 1 := by omega
    refine ⟨by simp only [MAX_WRONG, IMAGES_length] at hlt ⊢; omega, ?_⟩
    unfold HangmanGame.update_scores
    rw [if_pos ⟨h2, hlt⟩]
    simp only
    rw [modifyIdx_get?_self, hp]
    by_cases hu : p.hints_used = false
    · simp [Player.update_score, hu, Nat.add_assoc]
    · simp [Player.update_score, hu]
  · intro hlose
    unfold HangmanGame.check_round_over at hlose
    split_ifs at hlose with h0 h1 h2
    unfold HangmanGame.update_scores
    rw [if_neg]
    rintro ⟨-, hlt⟩
    omega

/-- A round on `"cat"` won with exactly two wrong guesses and no hint. -/
def gWin : HangmanGame :=
  { gFresh with
    guessed := ['c', 'a', 't', 'x', 'z']
    hangman_status := 2 }

/-- C1 witness: winning `"cat"` with 2 wrong guesses (`x`, `z` wrong) and no
hint used awards `(7 - 2) + 10 = 15` points, the spec's worked example. -/
theorem scoring_win_award_lose_unchanged_witness :
    gWin.check_round_over = RoundResult.win ∧
      gWin.hangman_status ≤ MAX_WRONG - 1 ∧
      (gWin.update_scores).players.get? gWin.current_player_index =
        some { Player.init "Player 1" with score := 15 } := by
  have h := (scoring_win_award_lose_unchanged gWin (Player.init "Player 1") rfl).1
    (by decide)
  exact ⟨by decide, h.1, by simpa using h.2⟩

/-- C6: committing a per-round reset never touches any player's remaining
hint budget, clears the current player's per-round hint flag, and that
budget starts at 3 per game as set once by `Player.__init__`. -/
theorem reset_game_state_hint_frame (g g' : HangmanGame) (pick : Nat)
    (hr : g.reset_game_state pick = .ok g') :
    (∀ j, (g'.players.get? j).map Player.hints_left =
        (g.players.get? j).map Player.hints_left) ∧
    (g.current_player_index < g.players.length →
      (g'.players.get? g.current_player_index).map Player.hints_used =
        some false) ∧
    (∀ name, (Player.init name).hints_left = 3) := by
  unfold HangmanGame.reset_game_state at hr
  split at hr
  · cases hr
  · split at hr
    · cases hr
    · injection hr with hr
      subst hr
      refine ⟨?_, ?_, fun _ => rfl⟩
      · intro j
        have := modifyIdx_map_field (fun p => { p with hints_used := false })
          Player.hints_left (fun _ => rfl) g.current_player_index j g.players
        simpa using this
      · intro hlen
        have h1 : (modifyIdx (fun p => { p with hints_used := false })
            g.current_player_index g.players).get? g.current_player_index =
            (g.players.get? g.current_player_index).map
              (fun p => { p with hints_used := false }) :=
          modifyIdx_get?_self _ _ _
        rw [List.get?_eq_get hlen] at h1
        show ((modifyIdx (fun p => { p with hints_used := false })
            g.current_player_index g.players).get? g.current_player_index).map
            Player.hints_used = some false
        rw [h1]
        rfl

/-- A mid-round two-player game in which player 1 has used a hint this
round and has two hints left. -/
def gResetIn : HangmanGame :=
  { HangmanGame.init wcCat 2
      [{ Player.init "Player 1" with hints_used := true, hints_left := 2 },
        Player.init "Player 2"] 0 with
    difficulty := some "easy"
    current_word := "cat"
    guessed := ['c']
    hangman_status := 1 }

/-- The state `gResetIn.reset_game_state 0` produces. -/
def gResetOut : HangmanGame :=
  { gResetIn with
    guessed := []
    hangman_status := 0
    current_word := "cat"
    game_state := "playing"
    players := [{ Player.init "Player 1" with hints_left := 2 },
      Player.init "Player 2"] }

/-- C6 witness: resetting a two-player game where player 1 used a hint
clears the flag and keeps both hint budgets. -/
theorem reset_game_state_hint_frame_witness :
    gResetIn.reset_game_state 0 = .ok gResetOut ∧
      (gResetOut.players.get? 0).map Player.hints_left = some 2 ∧
      (gResetOut.players.get? 1).map Player.hints_left = some 3 ∧
      (gResetOut.players.get? 0).map Player.hints_used = some false := by
  have hr : gResetIn.reset_game_state 0 = .ok gResetOut := rfl
  have h := reset_game_state_hint_frame gResetIn gResetOut 0 hr
  exact ⟨hr, (h.1 0).trans rfl, (h.1 1).trans rfl, h.2.1 (by decide)⟩

/-- C9: when the clue table has no entry for the chosen difficulty, or an
entry with an empty word set, `start` fails with an exception
(`KeyError` from the dict indexing, or `IndexError` from `random.choice` on
the empty sequence) that propagates to the caller; and whenever `start`
succeeds, the selected word is a member of the difficulty's candidate set,
so no word is ever selected from an empty one. -/
theorem start_fails_on_empty_candidates (g : HangmanGame) (d : String)
    (pick : Nat) :
    ((dictLookup g.words_clues d = none ∨ dictLookup g.words_clues d = some []) →
      (g.start d pick = .error GameError.keyError ∨
        g.start d pick = .error GameError.indexError)) ∧
    (∀ g', g.start d pick = .ok g' →
      ∃ wm, dictLookup g.words_clues d = some wm ∧
        g'.current_word ∈ wm.map Prod.fst) := by
  constructor
  · rintro (h | h)
    · left
      unfold HangmanGame.start
      rw [h]
    · right
      unfold HangmanGame.start
      rw [h]
      rfl
  · intro g' hok
    unfold HangmanGame.start at hok
    split at hok
    · cases hok
    · rename_i wm hl
      split at hok
      · cases hok
      · rename_i w hc
        injection hok with hok
        subst hok
        refine ⟨wm, hl, ?_⟩
        show w ∈ wm.map Prod.fst
        unfold randomChoice at hc
        split at hc
        · cases hc
        · injection hc with hc
          subst hc
          exact List.get_mem _ _ _

/-- C9 witness: with an empty clue table, starting at difficulty `"easy"`
fails with `KeyError`; with an empty word set under `"easy"` it fails with
`IndexError`. -/
theorem start_fails_on_empty_candidates_witness :
    ((HangmanGame.init [] 1 [Player.init "P"] 0).start "easy" 0 =
        .error GameError.keyError ∨
      (HangmanGame.init [] 1 [Player.init "P"] 0).start "easy" 0 =
        .error GameError.indexError) ∧
    ((HangmanGame.init [("easy", [])] 1 [Player.init "P"] 0).start "easy" 0 =
        .error GameError.keyError ∨
      (HangmanGame.init [("easy", [])] 1 [Player.init "P"] 0).start "easy" 0 =
        .error GameError.indexError) := by
  constructor
  · exact (start_fails_on_empty_candidates
      (HangmanGame.init [] 1 [Player.init "P"] 0) "easy" 0).1 (Or.inl rfl)
  · exact (start_fails_on_empty_candidates
      (HangmanGame.init [("easy", [])] 1 [Player.init "P"] 0) "easy" 0).1
      (Or.inr rfl)

/-- C7: in two-player mode with three rounds, when player 1 (index 0, not
the last index) finishes round 3 the state becomes
`end_of_game_two_players_first`; the continue click in that state rotates
the player index to 1, resets the round counter to 1 independently of
player 1's history, resets the word session and the new current player's
per-round hint flag, returns to `playing`, and leaves every player's hint
budget and score untouched. -/
theorem two_player_handoff (g : HangmanGame) (pick2 : Nat)
    (h2p : g.total_players = 2) (hlen : g.players.length = 2)
    (hidx : g.current_player_index = 0) (htr : g.total_rounds = 3)
    (hcr : g.current_round = 3) :
    (∀ pick, g.handle_end_of_round pick =
        .ok { g with game_state := "end_of_game_two_players_first" }) ∧
    (∀ g2, HangmanGame.handle_button_click
        { g with game_state := "end_of_game_two_players_first" } pick2 = .ok g2 →
      g2.current_player_index = 1 ∧ g2.current_round = 1 ∧
        g2.guessed = [] ∧ g2.hangman_status = 0 ∧
        g2.game_state = "playing" ∧ g2.hint_active = false ∧
        (g2.players.get? 1).map Player.hints_used = some false ∧
        (∀ j, (g2.players.get? j).map Player.hints_left =
          (g.players.get? j).map Player.hints_left) ∧
        (∀ j, (g2.players.get? j).map Player.score =
          (g.players.get? j).map Player.score)) := by
  constructor
  · intro pick
    unfold HangmanGame.handle_end_of_round
    rw [if_neg (by omega), if_neg (by omega), if_neg (by omega)]
  · intro g2 hok
    unfold HangmanGame.handle_button_click at hok
    have hne : ¬ (({ g with game_state := "end_of_game_two_players_first" } :
        HangmanGame).game_state = "end_of_round") :=
      fun hgs =>
        (by decide : ¬ ("end_of_game_two_players_first" = "end_of_round")) hgs
    rw [if_neg hne, if_pos rfl] at hok
    unfold HangmanGame.reset_game_state at hok
    split at hok
    · cases hok
    · split at hok
      · cases hok
      · injection hok with hok
        subst hok
        have hi : (g.current_player_index + 1) % g.total_players = 1 := by
          rw [hidx, h2p]
        refine ⟨?_, rfl, rfl, rfl, rfl, rfl, ?_, ?_, ?_⟩
        · exact hi
        · show ((modifyIdx (fun p => { p with hints_used := false })
              ((g.current_player_index + 1) % g.total_players)
              g.players).get? 1).map Player.hints_used = some false
          rw [hi, modifyIdx_get?_self]
          have h1 : (1 : Nat) < g.players.length := by omega
          rw [List.get?_eq_get h1]
          rfl
        · intro j
          have := modifyIdx_map_field (fun p => { p with hints_used := false })
            Player.hints_left (fun _ => rfl)
            ((g.current_player_index + 1) % g.total_players) j g.players
          simpa using this
        · intro j
          have := modifyIdx_map_field (fun p => { p with hints_used := false })
            Player.score (fun _ => rfl)
            ((g.current_player_index + 1) % g.total_players) j g.players
          simpa using this

/-- A concrete two-player game in which player 1 just finished their third
round, has used a hint and spent two of their three hints. -/
def gHandoff : HangmanGame :=
  { HangmanGame.init [("easy", [("cat", "feline")])] 2
      [{ Player.init "Player 1" with score := 12, hints_left := 1, hints_used := true },
        Player.init "Player 2"] 0 with
    difficulty := some "easy"
    current_word := "cat"
    current_round := 3 }

/-- The state after player 1's end-of-round handling in `gHandoff`. -/
def gHandoffMid : HangmanGame :=
  { gHandoff with game_state := "end_of_game_two_players_first" }

/-- The state after the continue click in `gHandoffMid`: player 2's turn,
round counter back to 1. -/
def gHandoffNext : HangmanGame :=
  { gHandoff with
    current_player_index := 1
    current_round := 1
    game_state := "playing" }

/-- C7 witness: the concrete two-player handoff; player 2 starts at round 1
with the full hint budget of 3 and player 1's state is preserved. -/
theorem two_player_handoff_witness :
    gHandoff.handle_end_of_round 0 = .ok gHandoffMid ∧
    gHandoffMid.handle_button_click 0 = .ok gHandoffNext ∧
    gHandoffNext.current_player_index = 1 ∧ gHandoffNext.current_round = 1 ∧
    (gHandoffNext.players.get? 1).map Player.hints_used = some false ∧
    (gHandoffNext.players.get? 0).map Player.hints_left = some 1 ∧
    (gHandoffNext.players.get? 1).map Player.hints_left = some 3 := by
  have h := two_player_handoff gHandoff 0 rfl rfl rfl rfl rfl
  have hbc : gHandoffMid.handle_button_click 0 = .ok gHandoffNext := rfl
  obtain ⟨hi, hr, -, -, -, -, hu, hl, -⟩ := h.2 gHandoffNext hbc
  exact ⟨h.1 0, hbc, hi, hr, hu, (hl 0).trans rfl, (hl 1).trans rfl⟩

end Hangman
